import Mathlib

/-!
Verification of the claude-sandbox session orchestrator against its
natural-language specification.

The development shallowly embeds the TypeScript sources:
* `src/docker/container-manager.ts` — `DockerContainerManager`
  (`buildBaseImage`, `createSandboxContainer`'s generated setup script,
  `executeCommands`, `attachTerminal`, `waitForInitCompletion`),
* `src/cli.ts` — `createSandbox` and `validateEnvironment`,
* `src/config/claude-config.ts` — `collectAllConfigs` / `collectDirectory`,
* the sandbox settings loader — `SandboxConfigManager.loadConfig`,
* `docker/entrypoint.sh` and the generated init script — the environment
  capture protocol (`comm -13` of sorted `env` snapshots, `grep -v` denylist).

External systems (the Docker daemon, the filesystem, git, the in-container
shell) are modelled as explicit inputs: image-inspection results, file
trees, command outcomes and log-sentinel visibility schedules are
parameters of the embedded functions.  Side effects are modelled as event
traces.  Machine-level time stamps are natural numbers (Docker image
creation times in seconds, file modification times in milliseconds,
exactly as the source combines them via `created * 1000`).
-/

namespace ClaudeSandbox

/-! ## Command execution (`DockerContainerManager.executeCommands`)

`executeCommands` runs each command with `execSync` inside the container.
A command's behaviour is modelled by an oracle `exec : String → CmdOutcome`:
`ok` when `execSync` returns normally, `err status stdout stderr` when it
throws (for a non-zero exit, `status` is `some code`; for an abnormal
termination `execSync` reports no status, modelled as `none`). -/

inductive CmdOutcome where
  | ok
  | err (status : Option Nat) (stdout : String) (stderr : String)
  deriving Repr, DecidableEq

/-- The structured failure returned by `executeCommands`. -/
structure CmdFailure where
  command : String
  exitCode : Nat
  output : String
  deriving Repr, DecidableEq

/-- JavaScript `error.status || 1`: `null`/`undefined` and `0` are falsy. -/
def jsOrOne : Option Nat → Nat
  | some s => if s = 0 then 1 else s
  | none => 1

/-- JavaScript `error.stdout || error.stderr || ''`: the empty string is falsy. -/
def jsOrStr (a b : String) : String :=
  if a = "" then b else a

/-- Embedding of `DockerContainerManager.executeCommands`
(`container-manager.ts` lines 252–276): run the commands in list order;
on the first `execSync` throw, return the failure record built from
`error.status || 1` and `error.stdout || error.stderr || ''` without
running the remaining commands; return `none` when every command
succeeds.  The second component is the list of commands actually
executed (in order). -/
def executeCommands (exec : String → CmdOutcome) :
    List String → Option CmdFailure × List String
  | [] => (none, [])
  | c :: rest =>
    match exec c with
    | CmdOutcome.ok =>
      let r := executeCommands exec rest
      (r.1, c :: r.2)
    | CmdOutcome.err st out errOut =>
      (some ⟨c, jsOrOne st, jsOrStr out errOut⟩, [c])

/-! ## Image cache (`DockerContainerManager.buildBaseImage`)

The Docker runtime state is the optional existing image, represented by
its creation timestamp in seconds (`inspect().Created`); the watched
entrypoint artifact's modification time is in milliseconds (a JS `Date`).
The source compares `entrypointStat.mtime > new Date(created * 1000)`.
Building installs an image whose creation timestamp is the build
instant `now` (seconds). -/

/-- Success-path embedding of `buildBaseImage` (`container-manager.ts`
lines 292–325), with builds always succeeding: returns the resulting
image state and the number of build invocations performed. -/
def ensureImage (mtimeMs : Nat) (now : Nat) (image : Option Nat) :
    Option Nat × Nat :=
  match image with
  | some created =>
    if created * 1000 < mtimeMs then (some now, 1) else (some created, 0)
  | none => (some now, 1)

/-- Two successive `buildBaseImage` calls (builds at instants `now1`,
`now2`) with the watched artifact unchanged; result is the total number
of build invocations. -/
def ensureImageTwiceBuilds (mtimeMs now1 now2 : Nat) (image : Option Nat) : Nat :=
  let r1 := ensureImage mtimeMs now1 image
  let r2 := ensureImage mtimeMs now2 r1.1
  r1.2 + r2.2

/-- Fallible embedding of `buildBaseImage`: `buildOk i` tells whether the
`i`-th `docker build` invocation of this call succeeds.  The source wraps
the whole inspect-and-rebuild block in `try … catch`; a failure of the
stale-path rebuild is therefore caught by the same `catch` that handles a
missing image (its comment reads "Image doesn't exist, build it") and a
second build is attempted; only a failure of that second build
propagates.  Returns the outcome and the number of build invocations
attempted. -/
def buildBaseImageE (mtimeMs : Nat) (now : Nat) (image : Option Nat)
    (buildOk : Nat → Bool) : Except String (Option Nat) × Nat :=
  match image with
  | some created =>
    if created * 1000 < mtimeMs then
      if buildOk 0 then (Except.ok (some now), 1)
      else
        if buildOk 1 then (Except.ok (some now), 2)
        else (Except.error "docker build failed", 2)
    else (Except.ok (some created), 0)
  | none =>
    if buildOk 0 then (Except.ok (some now), 1)
    else (Except.error "docker build failed", 1)

/-! ## Environment capture protocol (the generated init script)

`createSandboxContainer` (lines 65–98) generates a setup script that
snapshots `env` before and after the setup commands and computes

  `comm -13 <(sort before) <(sort after)` —

the lines unique to the after-snapshot — then pipes the result through
`grep -v` for each of the four anchored patterns `_=`, `PWD=`, `SHLVL=`,
`PIPESTATUS=` and persists the surviving lines.  Snapshots are lists of
`KEY=VALUE` lines; `env` emits each key once, so snapshots are
duplicate-free, which the theorems take as a hypothesis. -/

/-- The fixed denylist of volatile variable-name patterns removed by the
generated script's `grep -v` chain (each anchored at line start). -/
def envDenylist : List String :=
  ["_=", "PWD=", "SHLVL=", "PIPESTATUS="]

/-- A line removed by the `grep -v` chain: it starts with one of the
denylisted patterns (each `grep -v` pattern is anchored with `^`;
starting-with is computed on the character lists). -/
def volatileLine (l : String) : Bool :=
  envDenylist.any (fun p => p.toList.isPrefixOf l.toList)

/-- `sort`: the script sorts each snapshot before `comm`. -/
def sortLines (xs : List String) : List String :=
  List.insertionSort (fun a b => a ≤ b) xs

/-- `comm -13 before after` on sorted inputs: suppress the lines unique
to `before` (column 1) and the common lines (column 3), emitting only the
lines unique to `after` (column 2), by the standard sorted merge. -/
def comm13 : List String → List String → List String
  | _, [] => []
  | [], a :: as => a :: as
  | b :: bs, a :: as =>
    if a < b then a :: comm13 (b :: bs) as
    else if b < a then comm13 bs (a :: as)
    else comm13 bs as
termination_by bs as => bs.length + as.length

/-- The delta computed and persisted by the generated setup script:
`comm -13 <(sort before) <(sort after)` filtered by the `grep -v`
denylist chain (the content written to `/home/claude/.sandbox-env`,
before the script appends its final newline). -/
def scriptEnvDelta (before after : List String) : List String :=
  (comm13 (sortLines before) (sortLines after)).filter
    (fun l => !(volatileLine l))

/-- Modelled from the spec: the claimed value of the delta — the lines
present in the after-snapshot but not in the before-snapshot, minus the
denylisted lines. -/
def specEnvDelta (before after : List String) : List String :=
  (after.filter (fun l => !(before.contains l))).filter
    (fun l => !(volatileLine l))

/-! ## Configuration bundler (`ClaudeConfigManager.collectAllConfigs`)

`collectAllConfigs` walks `~/.claude` with `readdir(withFileTypes)`;
regular files become bundle entries keyed by their path relative to the
root, directories are recursed into via `collectDirectory`, and entries
that are neither regular files nor directories (symbolic links, sockets)
are skipped.  `readdir` returns bare component names (never `.` / `..`,
never containing a separator), so a relative path is modelled as its list
of components; `path.join(prefix, name)` appends one component. -/

inductive FsEntry where
  | file (name : String) (content : String)
  | dir (name : String) (children : List FsEntry)
  | other (name : String)

mutual

/-- Every directory-entry name in the tree differs from `..` (what
`readdir` guarantees; stated as the hypothesis the traversal theorem
needs). -/
def entryNamesOk : FsEntry → Bool
  | FsEntry.file n _ => n != ".."
  | FsEntry.dir n ch => n != ".." && entriesNamesOk ch
  | FsEntry.other n => n != ".."

def entriesNamesOk : List FsEntry → Bool
  | [] => true
  | e :: rest => entryNamesOk e && entriesNamesOk rest

end

/-- Embedding of `ClaudeConfigManager.collectDirectory`
(`claude-config.ts` lines 53–70), also covering the identical loop of
`collectAllConfigs` over the root (`pfx = []`): each regular file yields
one entry keyed `path.join(pfx, name)`; directories are recursed into at
the point they are encountered; other entry kinds yield nothing. -/
def collectDirectory (pfx : List String) : List FsEntry → List (List String × String)
  | [] => []
  | FsEntry.file n c :: rest => (pfx ++ [n], c) :: collectDirectory pfx rest
  | FsEntry.dir n ch :: rest =>
    collectDirectory (pfx ++ [n]) ch ++ collectDirectory pfx rest
  | FsEntry.other _ :: rest => collectDirectory pfx rest

/-- Embedding of `ClaudeConfigManager.collectAllConfigs`
(`claude-config.ts` lines 17–51): throws when the configuration root
does not exist, otherwise walks the tree from an empty relative prefix.
(The settings transform rewrites only the value stored under an existing
key and is immaterial to the bundle's key set.) -/
def collectAllConfigs (root : Option (List FsEntry)) :
    Except String (List (List String × String)) :=
  match root with
  | none => Except.error "Claude Code config directory not found"
  | some entries => Except.ok (collectDirectory [] entries)

/-- Modelled from the spec: the relative paths of the regular files under
a tree — what the claim says the bundle's key set must equal. -/
def regularFilePaths : List FsEntry → List (List String)
  | [] => []
  | FsEntry.file n _ :: rest => [n] :: regularFilePaths rest
  | FsEntry.dir n ch :: rest =>
    (regularFilePaths ch).map (fun p => n :: p) ++ regularFilePaths rest
  | FsEntry.other _ :: rest => regularFilePaths rest

/-! ## Sandbox settings loader (`SandboxConfigManager.loadConfig`)

`loadConfig` reads `.claude-sandbox/settings.json`, parses it and
validates it against `z.object({ commands: z.array(z.string()).min(1).optional() })`.
The file on disk is modelled as `ConfigFile`: `missing`, or `present`
with the outcome of `JSON.parse` (a structured value, or the exception
it threw). -/

inductive Json where
  | null
  | bool (b : Bool)
  | num (n : Int)
  | str (s : String)
  | arr (xs : List Json)
  | obj (fields : List (String × Json))

/-- The validated sandbox configuration. -/
structure SandboxCfg where
  commands : Option (List String)
  deriving Repr, DecidableEq

/-- The state of the project's `.claude-sandbox/settings.json`. -/
inductive ConfigFile where
  | missing
  | present (parse : Except String Json)

/-- All elements are JSON strings (`z.array(z.string())`). -/
def jsonStringList : List Json → Option (List String)
  | [] => some []
  | Json.str s :: rest => (jsonStringList rest).map (fun ss => s :: ss)
  | _ => none

/-- First binding of a key in a JSON object. -/
def lookupField (fields : List (String × Json)) (k : String) : Option Json :=
  (fields.find? (fun f => f.1 == k)).map (fun f => f.2)

/-- The zod schema `SandboxConfigSchema.safeParse`: the document must be
an object; its `commands` field, when present, must be an array of
strings with at least one element (`min(1)`); a missing field is
accepted as absent. -/
def validateSandboxConfig : Json → Option SandboxCfg
  | Json.obj fields =>
    match lookupField fields "commands" with
    | none => some ⟨none⟩
    | some (Json.arr xs) =>
      match jsonStringList xs with
      | some ss => if 0 < ss.length then some ⟨some ss⟩ else none
      | none => none
    | some _ => none
  | _ => none

/-- Embedding of `SandboxConfigManager.loadConfig`: missing file →
`null`; `JSON.parse` throwing → caught, `null`; schema validation
failing → `null`; otherwise the validated configuration. -/
def loadConfig (f : ConfigFile) : Option SandboxCfg :=
  match f with
  | ConfigFile.missing => none
  | ConfigFile.present (Except.error _) => none
  | ConfigFile.present (Except.ok data) => validateSandboxConfig data

/-- `loadConfig` as seen at its public interface, with exceptions
explicit: the early `pathExists` return and the `try`/`catch` around
read-parse-validate make every path produce a value. -/
def loadConfigE (f : ConfigFile) : Except String (Option SandboxCfg) :=
  match f with
  | ConfigFile.missing => Except.ok none
  | ConfigFile.present (Except.error _) => Except.ok none
  | ConfigFile.present (Except.ok data) =>
    match validateSandboxConfig data with
    | none => Except.ok none
    | some cfg => Except.ok (some cfg)

/-! ## Environment re-injection (`attachTerminal`, lines 159–188)

When attaching, the manager reads the persisted capture file, splits it
into lines, keeps the lines that are non-blank after trimming and do not
start with `#`, finds the first `=` (`indexOf`), requires its index to be
positive, splits the line there into key and value, and passes
`--env KEY=VALUE` for the keys containing one of the substrings `PATH`,
`INSTALL`, `HOME`. -/

/-- JavaScript `String.includes`: `splitOn` yields one part more than the
number of (non-overlapping) occurrences, so a substring occurs iff the
split has at least two parts. -/
def strContains (s pat : String) : Bool :=
  (s.splitOn pat).length != 1

/-- The allow-list test `key.includes('PATH') || key.includes('INSTALL')
|| key.includes('HOME')`. -/
def envAllowKey (k : String) : Bool :=
  strContains k "PATH" || strContains k "INSTALL" || strContains k "HOME"

/-- `const eqIndex = line.indexOf('='); if (eqIndex > 0)` — key is the
text before the first `=`, value the text after it. -/
def parseEnvLine (l : String) : Option (String × String) :=
  match l.toList.findIdx? (fun c => c == '=') with
  | some i =>
    if 0 < i then some ((l.toList.take i).asString, (l.toList.drop (i + 1)).asString)
    else none
  | none => none

/-- The `for (const line of envLines)` loop: each selected line
contributes `--env` followed by `KEY=VALUE` to the `docker exec`
argument list. -/
def envFlagsLoop : List String → List String
  | [] => []
  | l :: rest =>
    match parseEnvLine l with
    | some kv =>
      if envAllowKey kv.1 then
        "--env" :: (kv.1 ++ "=" ++ kv.2) :: envFlagsLoop rest
      else envFlagsLoop rest
    | none => envFlagsLoop rest

/-- The full selection performed by `attachTerminal` on the persisted
capture file: split into lines, pre-filter
`line.trim() && !line.startsWith('#')`, then run the loop. -/
def buildEnvFlags (content : String) : List String :=
  envFlagsLoop ((content.splitOn "\n").filter
    (fun l => l.trim != "" && !(l.startsWith "#")))

/-- Modelled from the claim's wording: a line is re-injected exactly when
it is non-blank, does not start with `#`, has its first `=` at a
position greater than zero, and its key contains `PATH`, `INSTALL` or
`HOME`. -/
def specEnvSelect (l : String) : Option (String × String) :=
  if l.trim = "" then none
  else if l.startsWith "#" then none
  else
    match parseEnvLine l with
    | some kv => if envAllowKey kv.1 then some kv else none
    | none => none

/-! ## Session orchestrator (`createSandbox` / `validateEnvironment`)

`createSandbox` (`cli.ts` lines 18–80) is embedded as a trace of the
externally visible actions it performs, over an explicit model of the
external world.  Container-runtime calls that the pipeline reaches are
modelled as succeeding (image-build failure behaviour is analysed
separately on `buildBaseImageE`); git commits that the pipeline reaches
succeed.  The readiness poll `waitForInitCompletion` (lines 202–250)
runs for at most 120000 ms with a 2000 ms sleep after each probe, hence
at most 60 probes; `vis i` tells whether a completion sentinel is
visible in the container logs at the `i`-th probe. -/

inductive Ev where
  | createProjectDir
  | validationFailure (msgs : List String)
  | worktreeCreated
  | configsCollected
  | containerCreated
  | containerStarted
  | preCommandRun (cmd : String)
  | manualAttachHint
  | pollChecked
  | sentinelObserved
  | timeoutLogged
  | attachSpawned
  | committed
  | containerStopped
  | containerRemoved
  | failed
  | completed
  deriving Repr, DecidableEq

/-- The external world a session runs against. -/
structure World where
  dockerUp : Bool
  claudeSettingsExists : Bool
  gitInstalled : Bool
  projectDirExists : Bool
  isGitRepo : Bool
  claudeDirExists : Bool
  sandboxFile : ConfigFile
  exec : String → CmdOutcome
  worktreePending : Bool
  isTTY : Bool

/-- The options `createSandbox` receives. -/
structure SandboxOpts where
  worktree : Bool
  preserveContainer : Bool

/-- The aggregated error list built by `validateEnvironment`
(`cli.ts` lines 82–115), in check order: Docker ping, Claude settings
presence, git availability. -/
def validationErrors (w : World) : List String :=
  (if w.dockerUp then [] else ["Docker is not running or not installed"]) ++
  (if w.claudeSettingsExists then []
   else ["Claude Code settings not found. Please install and configure Claude Code first."]) ++
  (if w.gitInstalled then [] else ["Git is not installed"])

/-- `validateEnvironment`'s actions: after the three checks it creates
the project directory when missing (`fs.ensureDir`), and only then
throws the aggregated error if any check failed. -/
def validateEnvironmentTrace (w : World) : List Ev :=
  (if w.projectDirExists then [] else [Ev.createProjectDir]) ++
  (if (validationErrors w).isEmpty then []
   else [Ev.validationFailure (validationErrors w)])

/-- The polling loop of `waitForInitCompletion`: probe the logs, return
on a sentinel, sleep and retry while inside the two-minute budget; when
the budget is exhausted, dump the accumulated logs and fall through
("Attaching anyway"). -/
def waitLoop (vis : Nat → Bool) : Nat → Nat → List Ev
  | _, 0 => [Ev.timeoutLogged]
  | i, fuel + 1 =>
    Ev.pollChecked ::
      (if vis i then [Ev.sentinelObserved] else waitLoop vis (i + 1) fuel)

/-- `waitForInitCompletion`, with its 60-probe budget
(120000 ms / 2000 ms). -/
def waitForInitTrace (vis : Nat → Bool) : List Ev :=
  waitLoop vis 0 60

/-- Embedding of `attachTerminal` (`container-manager.ts` lines
137–200): without a TTY it prints the manual-attach instruction and
returns; with a TTY it first runs the readiness poll — but only when
`hasPreCommands` is set — and then spawns the interactive `docker exec`. -/
def attachTerminalTrace (isTTY hasPre : Bool) (vis : Nat → Bool) : List Ev :=
  if isTTY then
    (if hasPre then waitForInitTrace vis else []) ++ [Ev.attachSpawned]
  else [Ev.manualAttachHint]

/-- The optional chain `sandboxConfig?.commands`, with a missing or
command-less configuration contributing no commands. -/
def configCommands (f : ConfigFile) : List String :=
  match loadConfig f with
  | some cfg =>
    match cfg.commands with
    | some cs => cs
    | none => []
  | none => []

/-- Step 4.5 of `createSandbox`: load `.claude-sandbox/settings.json`
and, when it declares a non-empty command list
(`sandboxConfig?.commands && sandboxConfig.commands.length > 0`), run
the commands via `executeCommands` (whose structured failure result
`createSandbox` ignores). -/
def preCommandTrace (w : World) : List Ev :=
  if 0 < (configCommands w.sandboxFile).length then
    (executeCommands w.exec (configCommands w.sandboxFile)).2.map Ev.preCommandRun
  else []

/-- Embedding of `createSandbox` (`cli.ts` lines 18–80): validate (any
failure is caught, logged, and ends the process), create the worktree
when requested (failing when the project is not a git repository),
collect configurations (failing when the configuration root is absent),
create and start the container, run pre-commands, attach — passing
`container.id` only, so `attachTerminal`'s `hasPreCommands` parameter
keeps its default `false` — commit pending worktree changes, and stop
and remove the container unless `preserveContainer` is set. -/
def createSandboxTrace (w : World) (o : SandboxOpts) (vis : Nat → Bool) : List Ev :=
  let vEvs := validateEnvironmentTrace w
  if (validationErrors w).isEmpty = false then vEvs ++ [Ev.failed]
  else if o.worktree && !w.isGitRepo then vEvs ++ [Ev.failed]
  else if !w.claudeDirExists then
    vEvs ++ (if o.worktree then [Ev.worktreeCreated] else []) ++ [Ev.failed]
  else
    vEvs ++
    (if o.worktree then [Ev.worktreeCreated] else []) ++
    [Ev.configsCollected] ++
    [Ev.containerCreated, Ev.containerStarted] ++
    preCommandTrace w ++
    attachTerminalTrace w.isTTY false vis ++
    (if o.worktree && w.worktreePending then [Ev.committed] else []) ++
    (if o.preserveContainer then [] else [Ev.containerStopped, Ev.containerRemoved]) ++
    [Ev.completed]

/-- Events that change filesystem or external state. -/
def mutatingEv : Ev → Bool
  | Ev.createProjectDir => true
  | Ev.worktreeCreated => true
  | Ev.containerCreated => true
  | Ev.containerStarted => true
  | Ev.preCommandRun _ => true
  | Ev.committed => true
  | Ev.containerStopped => true
  | Ev.containerRemoved => true
  | _ => false

/-- Recognises the aggregated-validation-error event. -/
def isValidationFailureEv : Ev → Bool
  | Ev.validationFailure _ => true
  | _ => false

/-- A session has project setup commands configured when the loaded
sandbox settings declare a non-empty command list. -/
def commandsConfigured (w : World) : Bool :=
  match loadConfig w.sandboxFile with
  | some cfg =>
    match cfg.commands with
    | some cs => 0 < cs.length
    | none => false
  | none => false

/-- One readiness-poll completion (sentinel observed, or timeout with the
full log dump) occurs at a position strictly before an interactive
attach. -/
def pollCompletesBeforeAttach (tr : List Ev) : Prop :=
  ∃ i j, i < j ∧ (tr.get? i = some Ev.sentinelObserved ∨ tr.get? i = some Ev.timeoutLogged) ∧
    tr.get? j = some Ev.attachSpawned

/-- Claim C1 as stated: in every session with setup commands configured
whose interactive attach begins, a readiness-poll completion precedes the
attach. -/
def claimC1Statement : Prop :=
  ∀ (w : World) (o : SandboxOpts) (vis : Nat → Bool),
    commandsConfigured w = true →
    Ev.attachSpawned ∈ createSandboxTrace w o vis →
    pollCompletesBeforeAttach (createSandboxTrace w o vis)

/-- Claim C2's consequence as stated: two successive `ensure` calls with
the watched artifact unchanged perform exactly one build. -/
def claimC2Statement : Prop :=
  ∀ (mtimeMs now1 now2 : Nat) (image : Option Nat),
    ensureImageTwiceBuilds mtimeMs now1 now2 image = 1

/-- Claim C7's frame condition as stated: whenever some validation check
fails, no mutating event precedes the aggregated validation error in the
session trace. -/
def claimC7Statement : Prop :=
  ∀ (w : World) (o : SandboxOpts) (vis : Nat → Bool),
    validationErrors w ≠ [] →
    ((createSandboxTrace w o vis).takeWhile
      (fun e => !(isValidationFailureEv e))).all (fun e => !(mutatingEv e)) = true

theorem comm13_sorted_eq_filter :
    ∀ (bs as : List String), List.Sorted (fun a b => a < b) bs →
      List.Sorted (fun a b => a < b) as →
      comm13 bs as = as.filter (fun a => !(bs.contains a))
  | bs, [], _, _ => by cases bs <;> simp [comm13]
  | [], a :: as, _, _ => by
    rw [comm13]
    simp
  | b :: bs, a :: as, hb, ha => by
    rw [List.sorted_cons] at hb ha
    have hsb : List.Sorted (fun a b => a < b) bs := hb.2
    have hsa : List.Sorted (fun a b => a < b) as := ha.2
    by_cases hab : a < b
    · have hnotmem : a ∉ b :: bs := by
        intro hmem
        rcases List.mem_cons.mp hmem with h | h
        · exact absurd (h ▸ hab) (lt_irrefl b)
        · exact absurd (lt_trans hab (hb.1 a h)) (lt_irrefl a)
      have step : comm13 (b :: bs) (a :: as) = a :: comm13 (b :: bs) as := by
        rw [comm13]; simp [hab]
      rw [step, comm13_sorted_eq_filter (b :: bs) as
            (List.sorted_cons.mpr hb) hsa]
      have hne : a ≠ b := fun h => hnotmem (h ▸ List.mem_cons_self b bs)
      have hnb : a ∉ bs := fun h => hnotmem (List.mem_cons_of_mem b h)
      simp [List.filter, hne, hnb]
    · by_cases hba : b < a
      · have step : comm13 (b :: bs) (a :: as) = comm13 bs (a :: as) := by
          rw [comm13]; simp [hab, hba]
        rw [step, comm13_sorted_eq_filter bs (a :: as) hsb (List.sorted_cons.mpr ha)]
        apply List.filter_congr
        intro x hx
        have hbx : b < x := by
          rcases List.mem_cons.mp hx with h | h
          · exact h ▸ hba
          · exact lt_trans hba (ha.1 x h)
        have hne : x ≠ b := fun hxb => absurd (hxb ▸ hbx) (lt_irrefl b)
        simp [List.contains_cons, hne]
      · have heq : a = b := le_antisymm (not_lt.mp hba) (not_lt.mp hab)
        subst heq
        have step : comm13 (a :: bs) (a :: as) = comm13 bs as := by
          rw [comm13]; simp [hab, hba]
        rw [step, comm13_sorted_eq_filter bs as hsb hsa]
        have hca : ((a :: bs).contains a) = true := by
          simp
        rw [List.filter]
        simp only [hca, Bool.not_true]
        apply List.filter_congr
        intro x hx
        have hax : a < x := ha.1 x hx
        have hne : x ≠ a := fun hxa => absurd (hxa ▸ hax) (lt_irrefl a)
        simp [List.contains_cons, hne]
termination_by bs as => bs.length + as.length

theorem executeCommands_all_ok (exec : String → CmdOutcome) :
    ∀ cs : List String, (∀ x ∈ cs, exec x = CmdOutcome.ok) →
      executeCommands exec cs = (none, cs) := by
  intro cs
  induction cs with
  | nil => intro _; rfl
  | cons c rest ih =>
    intro h
    have hc : exec c = CmdOutcome.ok := h c (List.mem_cons_self c rest)
    have hr := ih (fun x hx => h x (List.mem_cons_of_mem c hx))
    simp [executeCommands, hc, hr]

theorem executeCommands_failure_exitCode_ne_zero (exec : String → CmdOutcome) :
    ∀ (cs : List String) (r : CmdFailure),
      (executeCommands exec cs).1 = some r → r.exitCode ≠ 0 := by
  intro cs
  induction cs with
  | nil => intro r h; simp [executeCommands] at h
  | cons c rest ih =>
    intro r h
    cases hc : exec c with
    | ok =>
      simp [executeCommands, hc] at h
      exact ih r h
    | err st out errOut =>
      simp [executeCommands, hc] at h
      have : r.exitCode = jsOrOne st := by rw [← h]
      rw [this]
      cases st with
      | some s =>
        by_cases hs : s = 0 <;> simp [jsOrOne, hs]
      | none => simp [jsOrOne]

/-- C4: `executeCommands` runs the given commands sequentially in list
order; at the first command whose execution exits non-zero it returns
that command together with its non-zero exit code and its captured
output, executing none of the later commands; when every command
succeeds it returns `none` (with the whole list executed); and any
failure it returns carries a non-zero exit code. -/
theorem c4_executeCommands_stops_at_first_failure (exec : String → CmdOutcome) :
    (∀ (pre : List String) (c : String) (post : List String)
        (s : Nat) (out errOut : String),
        (∀ p ∈ pre, exec p = CmdOutcome.ok) →
        exec c = CmdOutcome.err (some s) out errOut → s ≠ 0 →
        executeCommands exec (pre ++ c :: post) =
          (some ⟨c, s, jsOrStr out errOut⟩, pre ++ [c])) ∧
    (∀ cs : List String, (∀ x ∈ cs, exec x = CmdOutcome.ok) →
        executeCommands exec cs = (none, cs)) ∧
    (∀ (cs : List String) (r : CmdFailure),
        (executeCommands exec cs).1 = some r → r.exitCode ≠ 0) := by
  refine ⟨?_, executeCommands_all_ok exec, executeCommands_failure_exitCode_ne_zero exec⟩
  intro pre
  induction pre with
  | nil =>
    intro c post s out errOut _ hc hs
    simp [executeCommands, hc, jsOrOne, hs]
  | cons p pre ih =>
    intro c post s out errOut hpre hc hs
    have hp : exec p = CmdOutcome.ok := hpre p (List.mem_cons_self p pre)
    have := ih c post s out errOut (fun x hx => hpre x (List.mem_cons_of_mem p hx)) hc hs
    simp [executeCommands, hp, this]

/-- C4 witness: the specification's own scenario `["ok1","fail2","ok3"]`
where `fail2` exits with code 3 and output `boom`. -/
theorem c4_witness :
    executeCommands
        (fun s => if s == "fail2" then CmdOutcome.err (some 3) "boom" "" else CmdOutcome.ok)
        ["ok1", "fail2", "ok3"] =
      (some ⟨"fail2", 3, "boom"⟩, ["ok1", "fail2"]) := by
  have h := (c4_executeCommands_stops_at_first_failure
      (fun s => if s == "fail2" then CmdOutcome.err (some 3) "boom" "" else CmdOutcome.ok)).1
      ["ok1"] "fail2" ["ok3"] 3 "boom" ""
      (by intro p hp; simp at hp; subst hp; rfl) (by rfl) (by decide)
  simpa [jsOrStr] using h

/-- C2 (amended): with an existing image, `buildBaseImage` rebuilds
(performing exactly one build, overwriting the tag) iff the watched
entrypoint artifact's modification time is strictly greater than the
image's creation time, and otherwise returns the existing image
unchanged with no build; with no existing image it builds once.
Two successive calls with the watched artifact unchanged — and the
artifact not modified after the first call's build instant — perform at
most one build in total, and exactly one when no image existed
initially.  (As stated, the claim's "exactly one build" is refuted by
`c2_counterexample`: with a pre-existing fresh image both calls perform
zero builds.) -/
theorem c2_ensureImage_cache (mtimeMs now1 now2 created : Nat) (image : Option Nat) :
    ((ensureImage mtimeMs now1 (some created)).2 = 1 ↔ created * 1000 < mtimeMs) ∧
    (created * 1000 < mtimeMs →
      ensureImage mtimeMs now1 (some created) = (some now1, 1)) ∧
    (¬ created * 1000 < mtimeMs →
      ensureImage mtimeMs now1 (some created) = (some created, 0)) ∧
    (ensureImage mtimeMs now1 none = (some now1, 1)) ∧
    (mtimeMs ≤ now1 * 1000 →
      ensureImageTwiceBuilds mtimeMs now1 now2 image ≤ 1 ∧
      (image = none → ensureImageTwiceBuilds mtimeMs now1 now2 image = 1)) := by
  refine ⟨?_, ?_, ?_, rfl, ?_⟩
  · by_cases h : created * 1000 < mtimeMs <;> simp [ensureImage, h]
  · intro h; simp [ensureImage, h]
  · intro h; simp [ensureImage, h]
  · intro hle
    have hnot : ¬ now1 * 1000 < mtimeMs := not_lt.mpr hle
    constructor
    · cases image with
      | none => simp [ensureImageTwiceBuilds, ensureImage, hnot]
      | some c =>
        by_cases h : c * 1000 < mtimeMs <;>
          simp [ensureImageTwiceBuilds, ensureImage, h, hnot]
    · intro h
      subst h
      simp [ensureImageTwiceBuilds, ensureImage, hnot]

/-- C2 witness: from a cold cache (no image), two calls with the
artifact unchanged build exactly once. -/
theorem c2_witness :
    ensureImageTwiceBuilds 5000 20 30 none = 1 :=
  ((c2_ensureImage_cache 5000 20 30 0 none).2.2.2.2 (by decide)).2 rfl

/-- C2 counterexample: with an existing fresh image (created at 10 s,
artifact modified at 5000 ms), two successive `ensure` calls perform
zero builds, not exactly one. -/
theorem c2_counterexample : ¬ claimC2Statement := by
  intro h
  have := h 5000 20 30 (some 10)
  exact absurd this (by decide)

/-- C3: evaluating `buildBaseImage` at the failing input.  With a stale
existing image (created 10 s, artifact modified 20000 ms) and `docker
build` failing, the call attempts two build invocations — the broad
`catch` around the inspect-and-rebuild block swallows the stale-path
rebuild failure and retries as if the image were missing — and when the
retry succeeds the failure does not propagate at all; only with no
existing image is exactly one build attempted with the failure
propagating. -/
theorem c3_stale_rebuild_retries :
    buildBaseImageE 20000 30 (some 10) (fun _ => false) =
      (Except.error "docker build failed", 2) ∧
    buildBaseImageE 20000 30 (some 10) (fun i => i == 1) =
      (Except.ok (some 30), 2) ∧
    buildBaseImageE 20000 30 none (fun _ => false) =
      (Except.error "docker build failed", 1) :=
  ⟨rfl, rfl, rfl⟩

theorem sortLines_perm (xs : List String) : (sortLines xs).Perm xs :=
  List.perm_insertionSort (fun a b => a ≤ b) xs

theorem sortLines_sorted_lt (xs : List String) (h : xs.Nodup) :
    List.Sorted (fun a b => a < b) (sortLines xs) := by
  have hle : List.Sorted (fun a b => a ≤ b) (sortLines xs) :=
    List.sorted_insertionSort (fun a b => a ≤ b) xs
  have hnd : (sortLines xs).Nodup := ((sortLines_perm xs).nodup_iff).mpr h
  exact List.Sorted.lt_of_le hle hnd

/-- C5: the delta computed by the generated setup script — `comm -13` of
the sorted snapshots, filtered by the `grep -v` denylist chain —
contains exactly the lines present in the after-snapshot but not in the
before-snapshot, minus the denylisted volatile lines; in particular,
when the two snapshots coincide the persisted delta is empty. -/
theorem c5_envDelta_eq_setDiff (before after : List String)
    (hb : before.Nodup) (ha : after.Nodup) :
    (∀ l, l ∈ scriptEnvDelta before after ↔
      (l ∈ specEnvDelta before after)) ∧
    (∀ l, l ∈ specEnvDelta before after ↔
      (l ∈ after ∧ l ∉ before ∧ volatileLine l = false)) ∧
    (before = after → scriptEnvDelta before after = []) := by
  have hkey : comm13 (sortLines before) (sortLines after) =
      (sortLines after).filter (fun a => !((sortLines before).contains a)) :=
    comm13_sorted_eq_filter (sortLines before) (sortLines after)
      (sortLines_sorted_lt before hb) (sortLines_sorted_lt after ha)
  have hcb : ∀ x, ((sortLines before).contains x) = (before.contains x) := by
    intro x
    apply Bool.coe_iff_coe.mp
    simp [(sortLines_perm before).mem_iff]
  refine ⟨?_, ?_, ?_⟩
  · intro l
    simp only [scriptEnvDelta, hkey, specEnvDelta, List.mem_filter, hcb,
      (sortLines_perm after).mem_iff]
  · intro l
    simp only [specEnvDelta, List.mem_filter, Bool.not_eq_true']
    constructor
    · rintro ⟨⟨hmem, hnc⟩, hv⟩
      exact ⟨hmem, by simpa using hnc, hv⟩
    · rintro ⟨hmem, hnb, hv⟩
      exact ⟨⟨hmem, by simpa using hnb⟩, hv⟩
  · intro h
    subst h
    have h2 : (sortLines before).filter
        (fun a => !((sortLines before).contains a)) = [] := by
      apply List.filter_eq_nil_iff.mpr
      intro a hmem
      simp [hmem]
    simp only [scriptEnvDelta, hkey, h2, List.filter_nil]

/-- C5 witness: a concrete before/after pair — the only surviving line
is the new non-volatile one — and an unchanged snapshot, whose persisted
delta is empty. -/
theorem c5_witness :
    ("PATH=/usr/bin" ∈ scriptEnvDelta ["B=1", "A=2"]
      ["A=2", "B=1", "PATH=/usr/bin", "PWD=/tmp"]) ∧
    scriptEnvDelta ["HOME=/root", "X=1"] ["HOME=/root", "X=1"] = [] := by
  constructor
  · exact ((c5_envDelta_eq_setDiff ["B=1", "A=2"]
      ["A=2", "B=1", "PATH=/usr/bin", "PWD=/tmp"] (by decide) (by decide)).1
        "PATH=/usr/bin").mpr
      (((c5_envDelta_eq_setDiff ["B=1", "A=2"]
        ["A=2", "B=1", "PATH=/usr/bin", "PWD=/tmp"] (by decide) (by decide)).2.1
          "PATH=/usr/bin").mpr (by decide))
  · exact (c5_envDelta_eq_setDiff ["HOME=/root", "X=1"] ["HOME=/root", "X=1"]
      (by decide) (by decide)).2.2 rfl

theorem collectDirectory_keys : ∀ (es : List FsEntry) (pfx : List String),
    (collectDirectory pfx es).map Prod.fst =
      (regularFilePaths es).map (fun p => pfx ++ p)
  | [], _ => by simp [collectDirectory, regularFilePaths]
  | FsEntry.file n c :: rest, pfx => by
    simp [collectDirectory, regularFilePaths, collectDirectory_keys rest pfx]
  | FsEntry.dir n ch :: rest, pfx => by
    simp only [collectDirectory, regularFilePaths, List.map_append,
      collectDirectory_keys ch (pfx ++ [n]), collectDirectory_keys rest pfx,
      List.map_map]
    congr 1
    apply List.map_congr_left
    intro p _
    simp

  | FsEntry.other _ :: rest, pfx => by
    simp [collectDirectory, regularFilePaths, collectDirectory_keys rest pfx]

theorem regularFilePaths_no_dotdot : ∀ es : List FsEntry,
    entriesNamesOk es = true → ∀ p ∈ regularFilePaths es, ".." ∉ p
  | [], _ => by simp [regularFilePaths]
  | FsEntry.file n c :: rest, h => by
    simp only [entriesNamesOk, entryNamesOk, Bool.and_eq_true, bne_iff_ne] at h
    intro p hp
    simp only [regularFilePaths, List.mem_cons] at hp
    rcases hp with hp | hp
    · subst hp
      simp only [List.mem_singleton]
      exact fun hn => h.1 hn.symm
    · exact regularFilePaths_no_dotdot rest h.2 p hp
  | FsEntry.dir n ch :: rest, h => by
    simp only [entriesNamesOk, entryNamesOk, Bool.and_eq_true, bne_iff_ne] at h
    intro p hp
    simp only [regularFilePaths, List.mem_append, List.mem_map] at hp
    rcases hp with ⟨q, hq, rfl⟩ | hp
    · intro hmem
      rcases List.mem_cons.mp hmem with hn | hn
    -- `..` is the head name or lies in the tail path
      · exact h.1.1 hn.symm
      · exact regularFilePaths_no_dotdot ch h.1.2 q hq hn
    · exact regularFilePaths_no_dotdot rest h.2 p hp
  | FsEntry.other _ :: rest, h => by
    simp only [entriesNamesOk, entryNamesOk, Bool.and_eq_true, bne_iff_ne] at h
    intro p hp
    simp only [regularFilePaths] at hp
    exact regularFilePaths_no_dotdot rest h.2 p hp

/-- C6: `collectAllConfigs` fails when the configuration root does not
exist; when it exists, the bundle's key set is exactly the set of
relative paths of the regular files under the root (directories and
other entry kinds produce no entries), and — `readdir` names never being
`..` — no key contains a parent-directory traversal segment. -/
theorem c6_collect_keys (es : List FsEntry) (b : List (List String × String))
    (hnames : entriesNamesOk es = true)
    (hcol : collectAllConfigs (some es) = Except.ok b) :
    (b.map Prod.fst = regularFilePaths es) ∧
    (∀ k ∈ b.map Prod.fst, ".." ∉ k) ∧
    collectAllConfigs (none : Option (List FsEntry)) =
      Except.error "Claude Code config directory not found" := by
  have hb : b = collectDirectory [] es := by
    simpa [collectAllConfigs] using hcol.symm
  subst hb
  have hkeys : (collectDirectory [] es).map Prod.fst = regularFilePaths es := by
    simpa using collectDirectory_keys es []
  refine ⟨hkeys, ?_, rfl⟩
  intro k hk
  rw [hkeys] at hk
  exact regularFilePaths_no_dotdot es hnames k hk

/-- C6 witness: a small tree with a nested directory, a symbolic link
and a socket; only the two regular files become keys. -/
theorem c6_witness :
    ((collectDirectory [] [FsEntry.file "settings.json" "s",
        FsEntry.dir "agents" [FsEntry.file "a.md" "x", FsEntry.other "ln"],
        FsEntry.other "sock"]).map Prod.fst =
      [["settings.json"], ["agents", "a.md"]]) ∧
    (∀ k ∈ (collectDirectory [] [FsEntry.file "settings.json" "s",
        FsEntry.dir "agents" [FsEntry.file "a.md" "x", FsEntry.other "ln"],
        FsEntry.other "sock"]).map Prod.fst, ".." ∉ k) := by
  have h := c6_collect_keys
    [FsEntry.file "settings.json" "s",
      FsEntry.dir "agents" [FsEntry.file "a.md" "x", FsEntry.other "ln"],
      FsEntry.other "sock"]
    (collectDirectory [] [FsEntry.file "settings.json" "s",
      FsEntry.dir "agents" [FsEntry.file "a.md" "x", FsEntry.other "ln"],
      FsEntry.other "sock"])
    rfl rfl
  refine ⟨?_, h.2.1⟩
  rw [h.1]
  simp [regularFilePaths]

theorem envFlagsLoop_eq_filterMap (ls : List String) :
    envFlagsLoop (ls.filter (fun l => l.trim != "" && !(l.startsWith "#"))) =
      (ls.filterMap specEnvSelect).flatMap
        (fun kv => ["--env", kv.1 ++ "=" ++ kv.2]) := by
  induction ls with
  | nil => rfl
  | cons l rest ih =>
    by_cases h1 : l.trim = ""
    · have hsel : specEnvSelect l = none := by simp [specEnvSelect, h1]
      simp [List.filter, List.filterMap, h1, hsel, ih]
    · have hb1 : (l.trim != "") = true := by simp [h1]
      by_cases h2 : l.startsWith "#"
      · have hsel : specEnvSelect l = none := by simp [specEnvSelect, h1, h2]
        simp [List.filter, List.filterMap, hb1, h2, hsel, ih]
      · have hb2 : (!(l.startsWith "#")) = true := by simp [h2]
        cases hp : parseEnvLine l with
        | none =>
          have hsel : specEnvSelect l = none := by simp [specEnvSelect, h1, h2, hp]
          simp [List.filter, List.filterMap, hb1, hb2, hp, hsel, envFlagsLoop, ih]
        | some kv =>
          by_cases ha : envAllowKey kv.1 = true
          · have hsel : specEnvSelect l = some kv := by
              simp [specEnvSelect, h1, h2, hp, ha]
            simp [List.filter, List.filterMap, hb1, hb2, hp, ha, hsel, envFlagsLoop, ih]
          · have hsel : specEnvSelect l = none := by
              simp [specEnvSelect, h1, h2, hp, ha]
            simp [List.filter, List.filterMap, hb1, hb2, hp, ha, hsel, envFlagsLoop, ih]

/-- C10: the `--env` overrides passed by `attachTerminal` to the
interactive `docker exec` invocation come from exactly those lines of
the persisted capture file that are non-blank, do not start with `#`,
have their first `=` at a position greater than zero, and whose key
contains one of the substrings `PATH`, `INSTALL`, `HOME`; every other
line contributes nothing. -/
theorem c10_attach_env_selection (content : String) :
    buildEnvFlags content =
      ((content.splitOn "\n").filterMap specEnvSelect).flatMap
        (fun kv => ["--env", kv.1 ++ "=" ++ kv.2]) :=
  envFlagsLoop_eq_filterMap (content.splitOn "\n")

/-- C9: `loadConfig` never throws at its public interface — every input
file state yields a plain value, equal to `loadConfig`'s result — and the
degenerate inputs (missing file, unparseable JSON, schema-invalid
document) all yield `null`; when the loaded configuration is `null` the
orchestrator runs no pre-commands. -/
theorem c9_loadConfig_never_throws :
    (∀ f : ConfigFile, loadConfigE f = Except.ok (loadConfig f)) ∧
    (loadConfig ConfigFile.missing = none) ∧
    (∀ e, loadConfig (ConfigFile.present (Except.error e)) = none) ∧
    (∀ d, validateSandboxConfig d = none →
      loadConfig (ConfigFile.present (Except.ok d)) = none) ∧
    (∀ w : World, loadConfig w.sandboxFile = none → preCommandTrace w = []) := by
  refine ⟨?_, rfl, fun e => rfl, ?_, ?_⟩
  · intro f
    cases f with
    | missing => rfl
    | present pr =>
      cases pr with
      | error e => rfl
      | ok data =>
        simp only [loadConfigE, loadConfig]
        cases validateSandboxConfig data <;> rfl
  · intro d h
    simp [loadConfig, h]
  · intro w h
    have hcc : configCommands w.sandboxFile = [] := by
      simp [configCommands, h]
    simp [preCommandTrace, hcc]

/-- C9 witness: a file whose `JSON.parse` throws, and a session against
such a file, which runs no pre-commands. -/
theorem c9_witness :
    loadConfig (ConfigFile.present (Except.error "Unexpected token")) = none ∧
    validateSandboxConfig (Json.obj [("commands", Json.arr [])]) = none ∧
    preCommandTrace
      { dockerUp := true, claudeSettingsExists := true, gitInstalled := true,
        projectDirExists := true, isGitRepo := true, claudeDirExists := true,
        sandboxFile := ConfigFile.present (Except.error "Unexpected token"),
        exec := fun _ => CmdOutcome.ok, worktreePending := false,
        isTTY := true } = [] := by
  refine ⟨c9_loadConfig_never_throws.2.2.1 "Unexpected token", rfl, ?_⟩
  exact c9_loadConfig_never_throws.2.2.2.2 _ rfl

theorem mem_preCommandTrace (w : World) (e : Ev) (h : e ∈ preCommandTrace w) :
    ∃ c, e = Ev.preCommandRun c := by
  unfold preCommandTrace at h
  by_cases hlen : 0 < (configCommands w.sandboxFile).length
  · rw [if_pos hlen] at h
    rcases List.mem_map.mp h with ⟨c, _, hc⟩
    exact ⟨c, hc.symm⟩
  · rw [if_neg hlen] at h
    simp at h

theorem not_mem_preCommandTrace (w : World) (e : Ev)
    (h : ∀ c, e ≠ Ev.preCommandRun c) : e ∉ preCommandTrace w := by
  intro hmem
  rcases mem_preCommandTrace w e hmem with ⟨c, hc⟩
  exact h c hc

theorem waitLoop_completes (vis : Nat → Bool) :
    ∀ (fuel i : Nat), Ev.sentinelObserved ∈ waitLoop vis i fuel ∨
      Ev.timeoutLogged ∈ waitLoop vis i fuel := by
  intro fuel
  induction fuel with
  | zero => intro i; right; simp [waitLoop]
  | succ n ih =>
    intro i
    by_cases h : vis i = true
    · left; simp [waitLoop, h]
    · have hf : vis i = false := by simpa using h
      rcases ih (i + 1) with hs | ht
      · left; simp [waitLoop, hf, hs]
      · right; simp [waitLoop, hf, ht]

theorem createSandboxTrace_main (w : World) (o : SandboxOpts) (vis : Nat → Bool)
    (herr : validationErrors w = [])
    (hr : o.worktree = true → w.isGitRepo = true)
    (hcd : w.claudeDirExists = true) :
    createSandboxTrace w o vis =
      (if w.projectDirExists then [] else [Ev.createProjectDir]) ++
      (if o.worktree then [Ev.worktreeCreated] else []) ++
      [Ev.configsCollected, Ev.containerCreated, Ev.containerStarted] ++
      preCommandTrace w ++
      (if w.isTTY then [Ev.attachSpawned] else [Ev.manualAttachHint]) ++
      (if o.worktree && w.worktreePending then [Ev.committed] else []) ++
      (if o.preserveContainer then []
       else [Ev.containerStopped, Ev.containerRemoved]) ++
      [Ev.completed] := by
  have hwg : (o.worktree && !w.isGitRepo) = false := by
    cases hw : o.worktree
    · simp
    · simp [hr hw]
  unfold createSandboxTrace validateEnvironmentTrace
  rw [herr]
  simp only [List.isEmpty_nil, Bool.true_eq_false, if_false, if_true, hwg,
    hcd, List.nil_append, Bool.not_true, List.append_nil]
  simp [attachTerminalTrace, List.append_assoc]

/-- C1 (amended): `attachTerminal`, when invoked with `hasPreCommands =
true` on a TTY, completes the readiness poll — a sentinel observation or
the timeout with its full log dump — strictly before spawning the
interactive session, and a timeout never prevents the attach.  However,
`createSandbox` invokes `attachTerminal` with only the container id, so
`hasPreCommands` keeps its default `false`, and a session whose setup
commands are configured attaches without any readiness poll (no probe,
no sentinel observation, no timeout handling in its trace). -/
theorem c1_readiness_poll_component_only (vis : Nat → Bool) (w : World)
    (o : SandboxOpts)
    (herr : validationErrors w = [])
    (hr : o.worktree = true → w.isGitRepo = true)
    (hcd : w.claudeDirExists = true) (ht : w.isTTY = true)
    (_hcmd : commandsConfigured w = true) :
    (∃ pre, attachTerminalTrace true true vis = pre ++ [Ev.attachSpawned] ∧
      (Ev.sentinelObserved ∈ pre ∨ Ev.timeoutLogged ∈ pre)) ∧
    (Ev.attachSpawned ∈ createSandboxTrace w o vis ∧
      Ev.pollChecked ∉ createSandboxTrace w o vis ∧
      Ev.sentinelObserved ∉ createSandboxTrace w o vis ∧
      Ev.timeoutLogged ∉ createSandboxTrace w o vis) := by
  constructor
  · refine ⟨waitForInitTrace vis, ?_, waitLoop_completes vis 60 0⟩
    simp [attachTerminalTrace]
  · rw [createSandboxTrace_main w o vis herr hr hcd]
    have hpoll := not_mem_preCommandTrace w Ev.pollChecked (by intro c h; cases h)
    have hsent := not_mem_preCommandTrace w Ev.sentinelObserved (by intro c h; cases h)
    have htimo := not_mem_preCommandTrace w Ev.timeoutLogged (by intro c h; cases h)
    refine ⟨?_, ?_, ?_, ?_⟩ <;>
      cases hpd : w.projectDirExists <;> cases hwk : o.worktree <;>
      cases hpend : w.worktreePending <;> cases hpc : o.preserveContainer <;>
      simp [ht, List.mem_append, hpoll, hsent, htimo]

/-- C1 counterexample: a healthy interactive session with one configured
setup command; its trace attaches with no readiness-poll completion
anywhere before (or after) the attach, refuting the claim as stated. -/
theorem c1_counterexample : ¬ claimC1Statement := by
  intro hclaim
  have h := hclaim
    { dockerUp := true, claudeSettingsExists := true, gitInstalled := true,
      projectDirExists := true, isGitRepo := true, claudeDirExists := true,
      sandboxFile := ConfigFile.present (Except.ok
        (Json.obj [("commands", Json.arr [Json.str "npm install"])])),
      exec := fun _ => CmdOutcome.ok, worktreePending := false, isTTY := true }
    ⟨true, false⟩ (fun _ => true) (by decide) (by decide)
  rcases h with ⟨i, j, _, hcomp, _⟩
  rcases hcomp with hs | ht
  · exact absurd (List.get?_mem hs) (by decide)
  · exact absurd (List.get?_mem ht) (by decide)

/-- C1 witness for the amended statement: a schedule on which the
sentinel is immediately visible, in the session world of the previous
counterexample's shape. -/
theorem c1_witness :
    (∃ pre, attachTerminalTrace true true (fun _ => true) =
      pre ++ [Ev.attachSpawned] ∧
      (Ev.sentinelObserved ∈ pre ∨ Ev.timeoutLogged ∈ pre)) ∧
    Ev.attachSpawned ∈ createSandboxTrace
      { dockerUp := true, claudeSettingsExists := true, gitInstalled := true,
        projectDirExists := true, isGitRepo := true, claudeDirExists := true,
        sandboxFile := ConfigFile.present (Except.ok
          (Json.obj [("commands", Json.arr [Json.str "npm install"])])),
        exec := fun _ => CmdOutcome.ok, worktreePending := false,
        isTTY := true }
      ⟨true, false⟩ (fun _ => true) := by
  have h := c1_readiness_poll_component_only (fun _ => true)
    { dockerUp := true, claudeSettingsExists := true, gitInstalled := true,
      projectDirExists := true, isGitRepo := true, claudeDirExists := true,
      sandboxFile := ConfigFile.present (Except.ok
        (Json.obj [("commands", Json.arr [Json.str "npm install"])])),
      exec := fun _ => CmdOutcome.ok, worktreePending := false, isTTY := true }
    ⟨true, false⟩ rfl (fun _ => rfl) rfl rfl (by decide)
  exact ⟨h.1, h.2.1⟩

/-- C7 (amended): the three environment-validation checks are evaluated
together and their failures reported as one aggregated error — each
check's message appears in the aggregate exactly when that check fails —
and the failing session performs no worktree, container, command,
commit or teardown action; however, `validateEnvironment` itself creates
the project directory when it is missing before raising the aggregated
error, so that one filesystem mutation can precede the report. -/
theorem c7_validation_aggregated (w : World) (o : SandboxOpts) (vis : Nat → Bool)
    (h : validationErrors w ≠ []) :
    (createSandboxTrace w o vis =
      (if w.projectDirExists then [] else [Ev.createProjectDir]) ++
      [Ev.validationFailure (validationErrors w), Ev.failed]) ∧
    (("Docker is not running or not installed" ∈ validationErrors w) ↔
      w.dockerUp = false) ∧
    (("Claude Code settings not found. Please install and configure Claude Code first." ∈
        validationErrors w) ↔ w.claudeSettingsExists = false) ∧
    (("Git is not installed" ∈ validationErrors w) ↔ w.gitInstalled = false) ∧
    (∀ e ∈ createSandboxTrace w o vis, mutatingEv e = true →
      e = Ev.createProjectDir) := by
  have hne : (validationErrors w).isEmpty = false := List.isEmpty_eq_false.mpr h
  have htr : createSandboxTrace w o vis =
      (if w.projectDirExists then [] else [Ev.createProjectDir]) ++
      [Ev.validationFailure (validationErrors w), Ev.failed] := by
    unfold createSandboxTrace validateEnvironmentTrace
    rw [hne]
    simp
  refine ⟨htr, ?_, ?_, ?_, ?_⟩
  · cases hdu : w.dockerUp <;> cases hcl : w.claudeSettingsExists <;>
      cases hgi : w.gitInstalled <;> simp [validationErrors, hdu, hcl, hgi]
  · cases hdu : w.dockerUp <;> cases hcl : w.claudeSettingsExists <;>
      cases hgi : w.gitInstalled <;> simp [validationErrors, hdu, hcl, hgi]
  · cases hdu : w.dockerUp <;> cases hcl : w.claudeSettingsExists <;>
      cases hgi : w.gitInstalled <;> simp [validationErrors, hdu, hcl, hgi]
  · intro e he hm
    rw [htr] at he
    rcases List.mem_append.mp he with hd | ht
    · cases hpd : w.projectDirExists
      · rw [hpd] at hd
        simpa using List.mem_singleton.mp hd
      · rw [hpd] at hd
        simp at hd
    · rcases List.mem_cons.mp ht with rfl | ht
      · simp [mutatingEv] at hm
      · rcases List.mem_cons.mp ht with rfl | ht
        · simp [mutatingEv] at hm
        · simp at ht

/-- C7 counterexample: with Docker down and the project directory
missing, `validateEnvironment` creates the project directory (a
filesystem mutation) before raising the aggregated error, refuting the
claim's "no filesystem or external state has been changed" as stated. -/
theorem c7_counterexample : ¬ claimC7Statement := by
  intro hclaim
  have h := hclaim
    { dockerUp := false, claudeSettingsExists := true, gitInstalled := true,
      projectDirExists := false, isGitRepo := true, claudeDirExists := true,
      sandboxFile := ConfigFile.missing, exec := fun _ => CmdOutcome.ok,
      worktreePending := false, isTTY := true }
    ⟨true, false⟩ (fun _ => true) (by decide)
  exact absurd h (by decide)

/-- C7 witness for the amended statement: the same world as the
counterexample — the aggregated report names exactly the Docker check,
and the only mutating event in the whole failed session is the
project-directory creation. -/
theorem c7_witness :
    (createSandboxTrace
      { dockerUp := false, claudeSettingsExists := true, gitInstalled := true,
        projectDirExists := false, isGitRepo := true, claudeDirExists := true,
        sandboxFile := ConfigFile.missing, exec := fun _ => CmdOutcome.ok,
        worktreePending := false, isTTY := true }
      ⟨true, false⟩ (fun _ => true) =
      [Ev.createProjectDir,
        Ev.validationFailure ["Docker is not running or not installed"],
        Ev.failed]) ∧
    ∀ e ∈ createSandboxTrace
      { dockerUp := false, claudeSettingsExists := true, gitInstalled := true,
        projectDirExists := false, isGitRepo := true, claudeDirExists := true,
        sandboxFile := ConfigFile.missing, exec := fun _ => CmdOutcome.ok,
        worktreePending := false, isTTY := true }
      ⟨true, false⟩ (fun _ => true), mutatingEv e = true →
      e = Ev.createProjectDir := by
  have h := c7_validation_aggregated
    { dockerUp := false, claudeSettingsExists := true, gitInstalled := true,
      projectDirExists := false, isGitRepo := true, claudeDirExists := true,
      sandboxFile := ConfigFile.missing, exec := fun _ => CmdOutcome.ok,
      worktreePending := false, isTTY := true }
    ⟨true, false⟩ (fun _ => true) (by decide)
  exact ⟨h.1, h.2.2.2.2⟩

/-- C8: when `preserveOnExit` is set, the session's trace contains no
container stop or removal, while pending worktree changes are still
committed; when it is not set, the commit (for a worktree with pending
changes) happens and is immediately followed by the container stop and
removal before the session completes. -/
theorem c8_preserve_container_frame (w : World) (o : SandboxOpts) (vis : Nat → Bool)
    (herr : validationErrors w = [])
    (hr : w.isGitRepo = true)
    (hcd : w.claudeDirExists = true) (hw : o.worktree = true) :
    (o.preserveContainer = true →
      Ev.containerStopped ∉ createSandboxTrace w o vis ∧
      Ev.containerRemoved ∉ createSandboxTrace w o vis ∧
      (w.worktreePending = true → Ev.committed ∈ createSandboxTrace w o vis)) ∧
    (o.preserveContainer = false → w.worktreePending = true →
      ∃ front, createSandboxTrace w o vis =
        front ++ [Ev.committed, Ev.containerStopped, Ev.containerRemoved,
          Ev.completed]) := by
  have hmain := createSandboxTrace_main w o vis herr (fun _ => hr) hcd
  have hstop := not_mem_preCommandTrace w Ev.containerStopped (by intro c h; cases h)
  have hrem := not_mem_preCommandTrace w Ev.containerRemoved (by intro c h; cases h)
  constructor
  · intro hp
    rw [hmain]
    refine ⟨?_, ?_, ?_⟩
    · cases hpd : w.projectDirExists <;> cases hpend : w.worktreePending <;>
        cases htty : w.isTTY <;>
        simp [hw, hp, List.mem_append, hstop, hrem]
    · cases hpd : w.projectDirExists <;> cases hpend : w.worktreePending <;>
        cases htty : w.isTTY <;>
        simp [hw, hp, List.mem_append, hstop, hrem]
    · intro hpend
      simp [hw, hpend, List.mem_append]
  · intro hp hpend
    rw [hmain, hw, hp, hpend]
    refine ⟨(if w.projectDirExists then [] else [Ev.createProjectDir]) ++
      [Ev.worktreeCreated] ++
      [Ev.configsCollected, Ev.containerCreated, Ev.containerStarted] ++
      preCommandTrace w ++
      (if w.isTTY then [Ev.attachSpawned] else [Ev.manualAttachHint]), ?_⟩
    simp [List.append_assoc]

/-- C8 witness: a healthy worktree session with pending changes and
`preserveOnExit` set — the container survives and the commit still
happens. -/
theorem c8_witness :
    Ev.containerStopped ∉ createSandboxTrace
      { dockerUp := true, claudeSettingsExists := true, gitInstalled := true,
        projectDirExists := true, isGitRepo := true, claudeDirExists := true,
        sandboxFile := ConfigFile.missing, exec := fun _ => CmdOutcome.ok,
        worktreePending := true, isTTY := true }
      ⟨true, true⟩ (fun _ => false) ∧
    Ev.committed ∈ createSandboxTrace
      { dockerUp := true, claudeSettingsExists := true, gitInstalled := true,
        projectDirExists := true, isGitRepo := true, claudeDirExists := true,
        sandboxFile := ConfigFile.missing, exec := fun _ => CmdOutcome.ok,
        worktreePending := true, isTTY := true }
      ⟨true, true⟩ (fun _ => false) := by
  have h := (c8_preserve_container_frame
    { dockerUp := true, claudeSettingsExists := true, gitInstalled := true,
      projectDirExists := true, isGitRepo := true, claudeDirExists := true,
      sandboxFile := ConfigFile.missing, exec := fun _ => CmdOutcome.ok,
      worktreePending := true, isTTY := true }
    ⟨true, true⟩ (fun _ => false) rfl rfl rfl rfl).1 rfl
  exact ⟨h.1, h.2.2 rfl⟩

end ClaudeSandbox
